import Mathlib

/-!
Verification of `src/storage/popup.js` (pavansweb/storista).

The whole program is one click handler: it reads three text fields
(`password`, `start`, `end`), parses `start` and `end` with JavaScript's
`parseInt` (no radix argument), short-circuits to an "Invalid range" / red
display when either parse yields `NaN`, and otherwise scans the integers
`i` from `start` to `end` inclusive, comparing `i.toString()` to the
password string, breaking at the first match.  It finally writes one of
three message/color pairs into the result element.

Shallow embedding used here:
* JavaScript strings are Lean `String`s (a `String` is a list of `Char`s).
* The numeric values flowing through the handler are mathematical integers
  (`Int`); `NaN` is modelled by `Option Int` with `none` for `NaN`.
* `parseInt(s)` (radix argument omitted) is embedded by `parseIntJS`,
  following the ECMAScript algorithm: skip leading whitespace, read an
  optional sign, detect an optional `0x`/`0X` prefix (radix 16, else 10),
  then take the longest prefix of radix digits; if that prefix is empty the
  result is `NaN` (`none`), otherwise the signed value of those digits.
  Trailing characters after the digit prefix are ignored.
* `i.toString()` for an integral value is embedded by `intToStr`: canonical
  decimal notation, a leading `-` for negatives, no leading zeros.
* The `for` loop with `break` is embedded by the fuelled recursion
  `scanFrom`, run for `rangeCount start stop` iterations — exactly the
  number of loop iterations `for (let i = start; i <= stop; i++)` performs.
* The DOM writes `result.textContent = …; result.style.color = …` are
  embedded as a returned record `ResultState`.
-/

/-- Decimal digit character for a value `d < 10` (code point `48 + d`),
as produced by JavaScript `Number.prototype.toString`. -/
def decDigit (d : Nat) : Char := Char.ofNat (48 + d)

/-- Fuelled most-significant-first decimal digit expansion of a natural
number: `n < 10` yields the single digit, otherwise the digits of `n / 10`
followed by the digit `n % 10`.  The fuel only bounds the recursion depth;
`natToChars` supplies enough of it. -/
def natDigitsAux : Nat → Nat → List Char
  | 0, _ => []
  | fuel + 1, n =>
    if n < 10 then [decDigit n]
    else natDigitsAux fuel (n / 10) ++ [decDigit (n % 10)]

/-- Decimal digit string of a natural number, most significant digit
first.  `n` has at most `n + 1` digits, so fuel `n + 1` always suffices. -/
def natToChars (n : Nat) : List Char := natDigitsAux (n + 1) n

/-- Character list produced by JavaScript `i.toString()` on an integral
number: a `-` sign followed by the decimal digits of the magnitude for
negatives, plain decimal digits otherwise. -/
def intToChars (i : Int) : List Char :=
  if i < 0 then '-' :: natToChars i.natAbs else natToChars i.toNat

/-- Embedding of JavaScript `i.toString()` on an integral number. -/
def intToStr (i : Int) : String := (intToChars i).asString

/-- Whitespace recognised by `parseInt` when skipping the front of its
input (ECMAScript WhiteSpace and LineTerminator code points: tab, LF,
vertical tab, form feed, CR, space, no-break space, line separator,
paragraph separator, BOM). -/
def isJsSpace (c : Char) : Bool :=
  c.toNat = 9 || c.toNat = 10 || c.toNat = 11 || c.toNat = 12 ||
  c.toNat = 13 || c.toNat = 32 || c.toNat = 160 ||
  c.toNat = 0x2028 || c.toNat = 0x2029 || c.toNat = 0xFEFF

/-- Value of a character as a hexadecimal digit (`0`–`9`, `a`–`f`,
`A`–`F`), or `none` if it is not one. -/
def hexDigitVal? (c : Char) : Option Nat :=
  if 48 ≤ c.toNat ∧ c.toNat ≤ 57 then some (c.toNat - 48)
  else if 97 ≤ c.toNat ∧ c.toNat ≤ 102 then some (c.toNat - 87)
  else if 65 ≤ c.toNat ∧ c.toNat ≤ 70 then some (c.toNat - 55)
  else none

/-- Value of a character as a digit in the given radix (10 or 16 here),
or `none` if the character is not a digit of that radix. -/
def digitVal? (radix : Nat) (c : Char) : Option Nat :=
  match hexDigitVal? c with
  | some v => if v < radix then some v else none
  | none => none

/-- Longest-prefix digit parse of `parseInt`: take the maximal run of
radix digits at the front of `cs` (ignoring everything after it); `none`
(i.e. `NaN`) if that run is empty, otherwise its value in the radix. -/
def digitsValue (radix : Nat) (cs : List Char) : Option Int :=
  let ds := cs.takeWhile fun c => (digitVal? radix c).isSome
  if ds = [] then none
  else some (ds.foldl (fun acc c => acc * (radix : Int) + ((digitVal? radix c).getD 0 : Nat)) 0)

/-- Radix-detection step of `parseInt` with the radix argument omitted: a
leading `0x` or `0X` selects radix 16 and is skipped, anything else is
parsed in radix 10. -/
def parseIntMag (cs : List Char) : Option Int :=
  match cs with
  | c0 :: c1 :: rest =>
    if c0.toNat = 48 ∧ (c1.toNat = 120 ∨ c1.toNat = 88) then digitsValue 16 rest
    else digitsValue 10 cs
  | _ => digitsValue 10 cs

/-- Sign step of `parseInt`: an optional leading `-` (negate the result)
or `+` before the radix detection and digits. -/
def parseIntCore (cs : List Char) : Option Int :=
  match cs with
  | [] => none
  | c :: rest =>
    if c.toNat = 45 then (parseIntMag rest).map Neg.neg
    else if c.toNat = 43 then parseIntMag rest
    else parseIntMag cs

/-- Embedding of JavaScript `parseInt(s)` with the radix argument
omitted, as called on lines 3–4 of `popup.js`: `none` stands for `NaN`. -/
def parseIntJS (s : String) : Option Int :=
  parseIntCore (s.data.dropWhile isJsSpace)

/-- Display state written by the handler: the `textContent` and the
`style.color` of the `result` element. -/
structure ResultState where
  textContent : String
  color : String
deriving DecidableEq, Repr

/-- Result written by the found branch (line 24–25 of `popup.js`). -/
def foundResult : ResultState :=
  { textContent := "Password is within range ?", color := "green" }

/-- Result written by the not-found branch (line 27–28 of `popup.js`). -/
def notFoundResult : ResultState :=
  { textContent := "Password NOT in range ?", color := "red" }

/-- Result written by the invalid-range branch (line 9–10 of
`popup.js`). -/
def invalidResult : ResultState :=
  { textContent := "Invalid range", color := "red" }

/-- Embedding of the loop
`for (let i = start; i <= end; i++) { if (i.toString() === password) { found = true; break; } }`
as a fuelled recursion: at each step compare `i.toString()` with the
password, stop with `true` on the first match, advance `i` otherwise;
`false` when the fuel (the remaining iteration count) runs out. -/
def scanFrom (password : String) (i : Int) : Nat → Bool
  | 0 => false
  | fuel + 1 => if intToStr i = password then true else scanFrom password (i + 1) fuel

/-- Number of iterations the loop header `for (let i = start; i <= stop; i++)`
executes its body: `stop - start + 1` when `start ≤ stop`, zero
otherwise. -/
def rangeCount (start stop : Int) : Nat := (stop - start + 1).toNat

/-- Instrumented version of `scanFrom` that also counts the number of
executed loop iterations (comparisons), used for the resource bound. -/
def scanFromSteps (password : String) (i : Int) : Nat → Bool × Nat
  | 0 => (false, 0)
  | fuel + 1 =>
    if intToStr i = password then (true, 1)
    else
      let r := scanFromSteps password (i + 1) fuel
      (r.1, r.2 + 1)

/-- Embedding of the whole click handler of `popup.js`: parse `start` and
`end`; if either is `NaN` write "Invalid range" in red and return;
otherwise run the scan loop and write the found (green) or not-found
(red) message according to the `found` flag. -/
def checkHandler (password startStr endStr : String) : ResultState :=
  match parseIntJS startStr, parseIntJS endStr with
  | some start, some stop =>
    let found := scanFrom password start (rangeCount start stop)
    if found then foundResult else notFoundResult
  | _, _ => invalidResult

/-- Modelled from the spec: the base-10 value of a string of decimal
digit characters, most significant first (used to state that well-formed
base-10 integer strings are parsed at their base-10 value). -/
def decDigitsValue (ds : List Char) : Int :=
  ds.foldl (fun a c => a * 10 + ((c.toNat : Int) - 48)) 0

/-- Modelled from the spec: the declarative membership check — some
integer `i` with `start ≤ i ≤ stop` has decimal string representation
equal to the password.  The scan loop is compared against this. -/
def specMembership (start stop : Int) (password : String) : Prop :=
  ∃ i : Int, start ≤ i ∧ i ≤ stop ∧ intToStr i = password

/-! Helper lemmas about the decimal representation. -/

theorem natDigitsAux_ne_nil (fuel n : Nat) (h : 0 < fuel) : natDigitsAux fuel n ≠ [] := by
  cases fuel with
  | zero => omega
  | succ f =>
    simp only [natDigitsAux]
    split <;> simp

theorem natDigitsAux_head (fuel : Nat) :
    ∀ n : Nat, n < fuel → 0 < n →
      ∃ d, 0 < d ∧ d < 10 ∧ (natDigitsAux fuel n).head? = some (decDigit d) := by
  induction fuel with
  | zero => intro n h; omega
  | succ f ih =>
    intro n hlt hpos
    simp only [natDigitsAux]
    by_cases h10 : n < 10
    · simp only [if_pos h10, List.head?_cons]
      exact ⟨n, hpos, h10, rfl⟩
    · have hdivpos : 0 < n / 10 := Nat.div_pos (by omega) (by omega)
      have hdivlt : n / 10 < f := by
        have := Nat.div_lt_self (by omega : 0 < n) (by omega : 1 < 10)
        omega
      obtain ⟨d, hd0, hd10, hhead⟩ := ih (n / 10) hdivlt hdivpos
      refine ⟨d, hd0, hd10, ?_⟩
      rw [if_neg h10]
      have hne := natDigitsAux_ne_nil f (n / 10) (by omega)
      cases hcase : natDigitsAux f (n / 10) with
      | nil => exact absurd hcase hne
      | cons a t =>
        rw [hcase] at hhead
        simpa using hhead

theorem decDigit_ne_zero_char (d : Nat) (h0 : 0 < d) (h10 : d < 10) : decDigit d ≠ '0' := by
  interval_cases d <;> decide

theorem asString_eq_iff (l : List Char) (s : String) : l.asString = s ↔ l = s.data := by
  cases s with
  | mk data =>
    constructor
    · intro h
      injection h
    · intro h
      rw [h]
      rfl

/-- A JavaScript integer never stringifies with a leading zero: `intToChars`
never equals a character list of length above one that starts with `'0'`. -/
theorem intToChars_no_leading_zero (i : Int) (l : List Char)
    (h0 : l.head? = some '0') (hlen : 1 < l.length) : intToChars i ≠ l := by
  intro heq
  unfold intToChars at heq
  split at heq
  · rw [← heq] at h0
    simp at h0
  · rename_i hneg
    have hnat : natToChars i.toNat = l := heq
    by_cases hz : i.toNat = 0
    · rw [hz] at hnat
      have : natToChars 0 = ['0'] := by decide
      rw [this] at hnat
      rw [← hnat] at hlen
      simp at hlen
    · obtain ⟨d, hd0, hd10, hhead⟩ :=
        natDigitsAux_head (i.toNat + 1) i.toNat (by omega) (by omega)
      rw [show natDigitsAux (i.toNat + 1) i.toNat = natToChars i.toNat from rfl, hnat, h0]
        at hhead
      have hchar : '0' = decDigit d := by injection hhead
      exact decDigit_ne_zero_char d hd0 hd10 hchar.symm

/-- String-level form: no integer stringifies to a password that has a
leading zero and length above one. -/
theorem intToStr_no_leading_zero (i : Int) (p : String)
    (h0 : p.data.head? = some '0') (hlen : 1 < p.data.length) : intToStr i ≠ p := by
  intro heq
  unfold intToStr at heq
  rw [asString_eq_iff] at heq
  exact intToChars_no_leading_zero i p.data h0 hlen heq

/-! Helper lemmas about the scan loop. -/

theorem scanFrom_eq_true_iff (p : String) (fuel : Nat) :
    ∀ i : Int, (scanFrom p i fuel = true ↔ ∃ k : Nat, k < fuel ∧ intToStr (i + k) = p) := by
  induction fuel with
  | zero => intro i; simp [scanFrom]
  | succ f ih =>
    intro i
    simp only [scanFrom]
    by_cases h : intToStr i = p
    · simp only [if_pos h, true_iff]
      exact ⟨0, by omega, by simpa using h⟩
    · rw [if_neg h, ih (i + 1)]
      constructor
      · rintro ⟨k, hk, hstr⟩
        refine ⟨k + 1, by omega, ?_⟩
        have harith : i + 1 + (k : Int) = i + ((k : Int) + 1) := by ring
        rw [harith] at hstr
        simpa using hstr
      · rintro ⟨k, hk, hstr⟩
        cases k with
        | zero => simp at hstr; exact absurd hstr h
        | succ k0 =>
          refine ⟨k0, by omega, ?_⟩
          have harith : i + 1 + (k0 : Int) = i + ((k0 : Nat) + 1 : Nat) := by push_cast; ring
          rw [harith]
          exact hstr

/-- Completeness and soundness of the range scan: the loop finds a match
exactly when some integer of the inclusive range stringifies to the
password. -/
theorem rangeScan_iff (a b : Int) (p : String) :
    scanFrom p a (rangeCount a b) = true ↔
      ∃ i : Int, a ≤ i ∧ i ≤ b ∧ intToStr i = p := by
  rw [scanFrom_eq_true_iff p (rangeCount a b) a]
  unfold rangeCount
  constructor
  · rintro ⟨k, hk, hstr⟩
    exact ⟨a + k, by omega, by omega, hstr⟩
  · rintro ⟨i, ha, hb, hstr⟩
    refine ⟨(i - a).toNat, by omega, ?_⟩
    have : a + ((i - a).toNat : Int) = i := by omega
    rw [this]
    exact hstr

/-- Contrapositive form used to discharge not-found hypotheses. -/
theorem rangeScan_false_of_no_match (a b : Int) (p : String)
    (h : scanFrom p a (rangeCount a b) = false) :
    ¬ ∃ i : Int, a ≤ i ∧ i ≤ b ∧ intToStr i = p := by
  rw [← rangeScan_iff]
  simp [h]

theorem scanFromSteps_le (p : String) (fuel : Nat) :
    ∀ i : Int, (scanFromSteps p i fuel).2 ≤ fuel := by
  induction fuel with
  | zero => intro i; simp [scanFromSteps]
  | succ f ih =>
    intro i
    simp only [scanFromSteps]
    split
    · omega
    · have := ih (i + 1)
      simp only []
      omega

theorem scanFromSteps_fst (p : String) (fuel : Nat) :
    ∀ i : Int, (scanFromSteps p i fuel).1 = scanFrom p i fuel := by
  induction fuel with
  | zero => intro i; simp [scanFromSteps, scanFrom]
  | succ f ih =>
    intro i
    simp only [scanFromSteps, scanFrom]
    split
    · rfl
    · exact ih (i + 1)

/-! Helper lemmas about the handler's branches. -/

theorem checkHandler_parsed (p s e : String) (a b : Int)
    (hs : parseIntJS s = some a) (he : parseIntJS e = some b) :
    checkHandler p s e =
      if scanFrom p a (rangeCount a b) then foundResult else notFoundResult := by
  unfold checkHandler
  rw [hs, he]

theorem checkHandler_invalid_of_parse_none (p s e : String)
    (h : parseIntJS s = none ∨ parseIntJS e = none) :
    checkHandler p s e = invalidResult := by
  unfold checkHandler
  rcases h with h | h
  · rw [h]
  · rw [h]
    cases parseIntJS s <;> rfl

/-! Helper lemmas about `parseIntJS` on well-formed base-10 integer
strings: such strings are accepted at their base-10 value. -/

theorem digitVal10_of_digit (c : Char) (h1 : 48 ≤ c.toNat) (h2 : c.toNat ≤ 57) :
    digitVal? 10 c = some (c.toNat - 48) := by
  unfold digitVal? hexDigitVal?
  rw [if_pos ⟨h1, h2⟩]
  show (if c.toNat - 48 < 10 then some (c.toNat - 48) else none) = some (c.toNat - 48)
  rw [if_pos (by omega)]

theorem isJsSpace_eq_false_of_digit (c : Char) (h1 : 48 ≤ c.toNat) (h2 : c.toNat ≤ 57) :
    isJsSpace c = false := by
  simp only [isJsSpace, Bool.or_eq_false_iff, decide_eq_false_iff_not]
  omega

theorem takeWhile_digits (ds : List Char)
    (hd : ∀ c ∈ ds, 48 ≤ c.toNat ∧ c.toNat ≤ 57) :
    ds.takeWhile (fun c => (digitVal? 10 c).isSome) = ds := by
  induction ds with
  | nil => rfl
  | cons c t ih =>
    have hc := hd c (by simp)
    have hsome : (digitVal? 10 c).isSome = true := by
      rw [digitVal10_of_digit c hc.1 hc.2]
      rfl
    have ht := ih fun x hx => hd x (by simp [hx])
    simp [List.takeWhile_cons, hsome, ht]

theorem foldl_digits (ds : List Char)
    (hd : ∀ c ∈ ds, 48 ≤ c.toNat ∧ c.toNat ≤ 57) :
    ∀ acc : Int,
      ds.foldl (fun acc c => acc * ((10 : Nat) : Int) + ((digitVal? 10 c).getD 0 : Nat)) acc =
        ds.foldl (fun a c => a * 10 + ((c.toNat : Int) - 48)) acc := by
  induction ds with
  | nil => intro acc; rfl
  | cons c t ih =>
    intro acc
    have hc := hd c (by simp)
    simp only [List.foldl_cons]
    rw [digitVal10_of_digit c hc.1 hc.2]
    have hcast : (((c.toNat - 48 : Nat) : Int)) = (c.toNat : Int) - 48 := by omega
    have harg :
        acc * ((10 : Nat) : Int) + ((Option.getD (some (c.toNat - 48)) 0 : Nat) : Int) =
          acc * 10 + ((c.toNat : Int) - 48) := by
      rw [Option.getD_some, hcast]
      norm_num
    rw [harg]
    exact ih (fun x hx => hd x (by simp [hx])) _

theorem digitsValue_of_digits (ds : List Char) (hne : ds ≠ [])
    (hd : ∀ c ∈ ds, 48 ≤ c.toNat ∧ c.toNat ≤ 57) :
    digitsValue 10 ds = some (decDigitsValue ds) := by
  unfold digitsValue decDigitsValue
  rw [takeWhile_digits ds hd]
  rw [if_neg hne]
  rw [foldl_digits ds hd 0]

theorem parseIntMag_of_digits (ds : List Char) (hne : ds ≠ [])
    (hd : ∀ c ∈ ds, 48 ≤ c.toNat ∧ c.toNat ≤ 57) :
    parseIntMag ds = some (decDigitsValue ds) := by
  match ds with
  | [] => exact absurd rfl hne
  | [c] =>
    show digitsValue 10 [c] = some (decDigitsValue [c])
    exact digitsValue_of_digits [c] (by simp) hd
  | c0 :: c1 :: rest =>
    have hc1 := hd c1 (by simp)
    show (if c0.toNat = 48 ∧ (c1.toNat = 120 ∨ c1.toNat = 88) then digitsValue 16 rest
          else digitsValue 10 (c0 :: c1 :: rest)) = some (decDigitsValue (c0 :: c1 :: rest))
    rw [if_neg (by omega)]
    exact digitsValue_of_digits (c0 :: c1 :: rest) (by simp) hd

theorem dropWhile_digits (c : Char) (t : List Char)
    (h1 : 48 ≤ c.toNat) (h2 : c.toNat ≤ 57) :
    (c :: t).dropWhile isJsSpace = c :: t := by
  rw [List.dropWhile_cons, isJsSpace_eq_false_of_digit c h1 h2]
  simp

theorem parseIntJS_of_digits (ds : List Char) (hne : ds ≠ [])
    (hd : ∀ c ∈ ds, 48 ≤ c.toNat ∧ c.toNat ≤ 57) :
    parseIntJS ds.asString = some (decDigitsValue ds) := by
  match ds with
  | c :: t =>
    have hc := hd c (by simp)
    unfold parseIntJS
    have hdata : (List.asString (c :: t)).data = c :: t := rfl
    rw [hdata, dropWhile_digits c t hc.1 hc.2]
    show (if c.toNat = 45 then (parseIntMag t).map Neg.neg
          else if c.toNat = 43 then parseIntMag t
          else parseIntMag (c :: t)) = some (decDigitsValue (c :: t))
    rw [if_neg (by omega), if_neg (by omega)]
    exact parseIntMag_of_digits (c :: t) hne hd

theorem parseIntJS_of_neg_digits (ds : List Char) (hne : ds ≠ [])
    (hd : ∀ c ∈ ds, 48 ≤ c.toNat ∧ c.toNat ≤ 57) :
    parseIntJS (('-' :: ds).asString) = some (-(decDigitsValue ds)) := by
  unfold parseIntJS
  have hdata : (List.asString ('-' :: ds)).data = '-' :: ds := rfl
  rw [hdata]
  have hspace : isJsSpace '-' = false := by decide
  have hnospace : ('-' :: ds).dropWhile isJsSpace = '-' :: ds := by
    rw [List.dropWhile_cons, hspace]
    simp
  rw [hnospace]
  show (if ('-').toNat = 45 then (parseIntMag ds).map Neg.neg
        else if ('-').toNat = 43 then parseIntMag ds
        else parseIntMag ('-' :: ds)) = some (-(decDigitsValue ds))
  rw [if_pos (by decide)]
  rw [parseIntMag_of_digits ds hne hd]
  rfl

example : intToStr 5 = "5" := by decide
example : intToStr (-17) = "-17" := by decide
example : intToStr 0 = "0" := by decide
example : parseIntJS "1" = some 1 := by decide
example : parseIntJS "  -42xyz" = some (-42) := by decide
example : parseIntJS "12abc" = some 12 := by decide
example : parseIntJS "0x10" = some 16 := by decide
example : parseIntJS "a" = none := by decide
example : parseIntJS "" = none := by decide
example : parseIntJS "+7" = some 7 := by decide
example : parseIntJS "0x" = none := by decide
example : checkHandler "5" "1" "10" = foundResult := by decide
example : checkHandler "05" "1" "10" = notFoundResult := by decide
example : checkHandler "5" "a" "10" = invalidResult := by decide
example : checkHandler "5" "12abc" "20" = notFoundResult := by decide

/-! Claim theorems. -/

/-- C1: for every pair of integer-parsing start and end inputs and every
password string, if some integer `i` in the inclusive range `[start, end]`
has decimal string representation exactly equal to the password string,
then the handler sets the result message to the found message and the
result color to green. -/
theorem claim_c1_found_when_member (p s e : String) (a b : Int)
    (hs : parseIntJS s = some a) (he : parseIntJS e = some b)
    (hmem : ∃ i : Int, a ≤ i ∧ i ≤ b ∧ intToStr i = p) :
    checkHandler p s e = foundResult := by
  rw [checkHandler_parsed p s e a b hs he]
  rw [if_pos ((rangeScan_iff a b p).mpr hmem)]

/-- C1 witness: the spec scenario start 1, end 10, password "5" is found
and displayed in green. -/
theorem claim_c1_found_when_member_witness :
    checkHandler "5" "1" "10" = foundResult :=
  claim_c1_found_when_member "5" "1" "10" 1 10 (by decide) (by decide)
    ⟨5, by decide, by decide, by decide⟩

/-- C2: for every pair of integer-parsing start and end inputs and every
password string, if no integer in the inclusive range `[start, end]` has
decimal string representation equal to the password string, then the
handler sets the result message to the not-found message and the result
color to red. -/
theorem claim_c2_not_found_when_no_member (p s e : String) (a b : Int)
    (hs : parseIntJS s = some a) (he : parseIntJS e = some b)
    (hmem : ¬ ∃ i : Int, a ≤ i ∧ i ≤ b ∧ intToStr i = p) :
    checkHandler p s e = notFoundResult := by
  rw [checkHandler_parsed p s e a b hs he]
  have hscan : ¬ scanFrom p a (rangeCount a b) = true :=
    fun h => hmem ((rangeScan_iff a b p).mp h)
  rw [if_neg hscan]

/-- C2 witness: password "05" is not found in the range 1 to 10 and the
handler reports the not-found message in red. -/
theorem claim_c2_not_found_when_no_member_witness :
    checkHandler "05" "1" "10" = notFoundResult :=
  claim_c2_not_found_when_no_member "05" "1" "10" 1 10 (by decide) (by decide)
    (rangeScan_false_of_no_match 1 10 "05" (by decide))

/-- C3: for every password string, if parsing the start input or the end
input as an integer fails (yields NaN), the handler sets the result
message to "Invalid range" with red color and performs no scan of the
range, regardless of the password value. -/
theorem claim_c3_invalid_range (p s e : String)
    (h : parseIntJS s = none ∨ parseIntJS e = none) :
    checkHandler p s e = invalidResult :=
  checkHandler_invalid_of_parse_none p s e h

/-- C3 witness: the spec scenario start "a", end 10 yields "Invalid
range" in red. -/
theorem claim_c3_invalid_range_witness :
    checkHandler "5" "a" "10" = invalidResult :=
  claim_c3_invalid_range "5" "a" "10" (Or.inl (by decide))

/-- C4 counterexample: the claim that any input that is not a well-formed
base-10 integer string (for example with trailing non-digit garbage, or a
hexadecimal prefix) triggers the "Invalid range" result is false:
`parseInt` accepts "12abc" at value 12 and "0x10" at value 16 (radix 16),
so the handler scans the range instead of short-circuiting. -/
theorem claim_c4_counterexample :
    parseIntJS "12abc" = some 12 ∧ parseIntJS "0x10" = some 16 ∧
    checkHandler "5" "12abc" "20" = notFoundResult ∧
    notFoundResult ≠ invalidResult :=
  ⟨by decide, by decide, by decide, by decide⟩

/-- C4 (amended): the handler short-circuits to the invalid-range error
exactly when `parseInt` finds no digits in the start or the end input
(after optional whitespace, an optional sign, and an optional `0x`/`0X`
hex prefix); trailing non-digit characters after the digits are ignored
rather than rejected, and a hex-prefixed string parses at radix 16; every
well-formed base-10 integer string (optional minus sign followed by
decimal digits) is accepted and parsed at its base-10 value. -/
theorem claim_c4_amended :
    (∀ p s e : String, checkHandler p s e = invalidResult ↔
        (parseIntJS s = none ∨ parseIntJS e = none)) ∧
    (∀ ds : List Char, ds ≠ [] → (∀ c ∈ ds, 48 ≤ c.toNat ∧ c.toNat ≤ 57) →
        parseIntJS ds.asString = some (decDigitsValue ds) ∧
        parseIntJS (('-' :: ds).asString) = some (-(decDigitsValue ds))) := by
  constructor
  · intro p s e
    constructor
    · intro h
      by_contra hcon
      push_neg at hcon
      obtain ⟨hs, he⟩ := hcon
      cases hsome : parseIntJS s with
      | none => exact hs hsome
      | some a =>
        cases hesome : parseIntJS e with
        | none => exact he hesome
        | some b =>
          rw [checkHandler_parsed p s e a b hsome hesome] at h
          by_cases hscan : scanFrom p a (rangeCount a b) = true
          · rw [if_pos hscan] at h
            exact absurd h (by decide)
          · rw [if_neg hscan] at h
            exact absurd h (by decide)
    · exact checkHandler_invalid_of_parse_none p s e
  · intro ds hne hd
    exact ⟨parseIntJS_of_digits ds hne hd, parseIntJS_of_neg_digits ds hne hd⟩

/-- C4 witness: the amended characterisation instantiated at concrete
inputs — start "x" yields the invalid-range result, and the well-formed
base-10 string "42" parses at its base-10 value. -/
theorem claim_c4_amended_witness :
    checkHandler "9" "x" "10" = invalidResult ∧
    parseIntJS (['4', '2'].asString) = some (decDigitsValue ['4', '2']) :=
  ⟨(claim_c4_amended.1 "9" "x" "10").mpr (Or.inl (by decide)),
    (claim_c4_amended.2 ['4', '2'] (by decide) (by decide)).1⟩

/-- C5: for every valid integer range and every password string beginning
with the digit 0 and longer than one character, no integer stringifies to
the password (integer-to-string never produces leading zeros), so the
handler reports not-found in red. -/
theorem claim_c5_leading_zero_never_found (p s e : String) (a b : Int)
    (hs : parseIntJS s = some a) (he : parseIntJS e = some b)
    (h0 : p.data.head? = some '0') (hlen : 1 < p.data.length) :
    (∀ i : Int, intToStr i ≠ p) ∧ checkHandler p s e = notFoundResult := by
  have hnone : ∀ i : Int, intToStr i ≠ p :=
    fun i => intToStr_no_leading_zero i p h0 hlen
  refine ⟨hnone, ?_⟩
  rw [checkHandler_parsed p s e a b hs he]
  have hscan : ¬ scanFrom p a (rangeCount a b) = true := by
    intro h
    obtain ⟨i, _, _, hstr⟩ := (rangeScan_iff a b p).mp h
    exact hnone i hstr
  rw [if_neg hscan]

/-- C5 witness: the spec scenario start 1, end 10, password "05" — no
integer stringifies to "05" and the handler reports not-found in red. -/
theorem claim_c5_leading_zero_never_found_witness :
    (∀ i : Int, intToStr i ≠ "05") ∧ checkHandler "05" "1" "10" = notFoundResult :=
  claim_c5_leading_zero_never_found "05" "1" "10" 1 10 (by decide) (by decide)
    (by decide) (by decide)

/-- C6: the early-terminating scan loop computes the same found outcome
as the declarative membership check — there exists an integer `i` with
`start ≤ i ≤ end` whose decimal string equals the password. -/
theorem claim_c6_scan_equals_membership (a b : Int) (p : String) :
    scanFrom p a (rangeCount a b) = true ↔ specMembership a b p :=
  rangeScan_iff a b p

/-- C7: for every start and end that parse as integers, the scan
terminates: the loop performs at most `end - start + 1` iterations (its
iteration count is `rangeCount`, equal to `end - start + 1` on nonempty
ranges), and the instrumented scan computes the same flag as the loop. -/
theorem claim_c7_terminates_bounded (p s e : String) (a b : Int)
    (_hs : parseIntJS s = some a) (_he : parseIntJS e = some b) :
    (scanFromSteps p a (rangeCount a b)).2 ≤ rangeCount a b ∧
    (scanFromSteps p a (rangeCount a b)).1 = scanFrom p a (rangeCount a b) ∧
    (a ≤ b → (rangeCount a b : Int) = b - a + 1) := by
  refine ⟨scanFromSteps_le p (rangeCount a b) a,
    scanFromSteps_fst p (rangeCount a b) a, fun hab => ?_⟩
  unfold rangeCount
  omega

/-- C7 witness: on the range 1 to 10 the scan for password "5" runs at
most 10 iterations and agrees with the loop. -/
theorem claim_c7_terminates_bounded_witness :
    (scanFromSteps "5" 1 (rangeCount 1 10)).2 ≤ rangeCount 1 10 ∧
    (scanFromSteps "5" 1 (rangeCount 1 10)).1 = scanFrom "5" 1 (rangeCount 1 10) ∧
    ((1 : Int) ≤ 10 → (rangeCount 1 10 : Int) = 10 - 1 + 1) :=
  claim_c7_terminates_bounded "5" "1" "10" 1 10 (by decide) (by decide)

/-- C8: for every start and end that both parse as integers with start
greater than end, the loop body never executes (the iteration count is 0)
and the handler reports not-found in red, for every password string. -/
theorem claim_c8_empty_range (p s e : String) (a b : Int)
    (hs : parseIntJS s = some a) (he : parseIntJS e = some b) (hba : b < a) :
    rangeCount a b = 0 ∧ checkHandler p s e = notFoundResult := by
  have hzero : rangeCount a b = 0 := by
    unfold rangeCount
    omega
  refine ⟨hzero, ?_⟩
  rw [checkHandler_parsed p s e a b hs he, hzero]
  simp [scanFrom]

/-- C8 witness: start 10, end 1 is an empty range — zero iterations and a
not-found result. -/
theorem claim_c8_empty_range_witness :
    rangeCount 10 1 = 0 ∧ checkHandler "5" "10" "1" = notFoundResult :=
  claim_c8_empty_range "5" "10" "1" 10 1 (by decide) (by decide) (by decide)

/-- C9: on every invocation the handler writes exactly one of the three
message/color pairs, and the color is green if and only if the message is
the found message; the invalid-range and not-found messages are always
paired with red. -/
theorem claim_c9_output_invariant (p s e : String) :
    (checkHandler p s e = foundResult ∨ checkHandler p s e = notFoundResult ∨
      checkHandler p s e = invalidResult) ∧
    ((checkHandler p s e).color = "green" ↔
      (checkHandler p s e).textContent = "Password is within range ?") := by
  cases hsome : parseIntJS s with
  | none =>
    rw [checkHandler_invalid_of_parse_none p s e (Or.inl hsome)]
    exact ⟨Or.inr (Or.inr rfl), by decide⟩
  | some a =>
    cases hesome : parseIntJS e with
    | none =>
      rw [checkHandler_invalid_of_parse_none p s e (Or.inr hesome)]
      exact ⟨Or.inr (Or.inr rfl), by decide⟩
    | some b =>
      rw [checkHandler_parsed p s e a b hsome hesome]
      by_cases hscan : scanFrom p a (rangeCount a b) = true
      · rw [if_pos hscan]
        exact ⟨Or.inl rfl, by decide⟩
      · rw [if_neg hscan]
        exact ⟨Or.inr (Or.inl rfl), by decide⟩

/-- C10: the handler is deterministic — two invocations with identical
password, start, and end field values produce identical result message
and identical result color. -/
theorem claim_c10_deterministic (p1 s1 e1 p2 s2 e2 : String)
    (hp : p1 = p2) (hs : s1 = s2) (he : e1 = e2) :
    (checkHandler p1 s1 e1).textContent = (checkHandler p2 s2 e2).textContent ∧
    (checkHandler p1 s1 e1).color = (checkHandler p2 s2 e2).color := by
  subst hp
  subst hs
  subst he
  exact ⟨rfl, rfl⟩

/-- C10 witness: two invocations on password "5", start "1", end "10"
agree on message and color. -/
theorem claim_c10_deterministic_witness :
    (checkHandler "5" "1" "10").textContent = (checkHandler "5" "1" "10").textContent ∧
    (checkHandler "5" "1" "10").color = (checkHandler "5" "1" "10").color :=
  claim_c10_deterministic "5" "1" "10" "5" "1" "10" rfl rfl rfl
